import Mathlib

/-!
Shallow embedding of the My Day background-job pipeline
(`server/app/tasks.py`, `server/app/routes/entries.py`,
`server/app/routes/exports.py`, `server/app/models.py`) and proofs about it.

Network and filesystem effects are modelled by explicit environments:
the body served on each download attempt, the outcome of the speech model,
the response of the text-cleanup provider and the outcome of the archive
upload are inputs to the embedded functions; everything else follows the
Python source line by line.  Machine details that the source relies on are
made explicit: Python truthiness of optional strings (`None` and `""` are
falsy), `or`-defaulting, and `[:1000]` slicing as a `List.take` on the
character list.
-/

namespace MyDay

/-- Python truthiness of an optional string: `None` and `""` are falsy. -/
def optTruthy : Option String → Bool
  | none => false
  | some s => s != ""

/-- `x or ""` applied to an optional string: `None` and `""` both give `""`. -/
def optStr (o : Option String) : String := o.getD ""

/-- Python `str.lower()` on the ASCII configuration strings the code compares
against (`"whisper"`, `"none"`, `"openai"`, …). -/
def pyLower (s : String) : String := ⟨s.data.map Char.toLower⟩

/-- Python `str.strip()`: remove leading and trailing whitespace. -/
def pyStrip (s : String) : String :=
  ⟨(((s.data.dropWhile Char.isWhitespace).reverse.dropWhile Char.isWhitespace).reverse)⟩

/-- A Python exception, reduced to what the code observes: `str(e)` and
`e.__class__.__name__`. -/
structure PyExc where
  msg : String
  className : String
deriving DecidableEq, Repr

/-- `(str(e) or e.__class__.__name__)`: the message, or the class name when the
message is empty. -/
def pyExcText (e : PyExc) : String :=
  if e.msg != "" then e.msg else e.className

/-- Python string slicing `s[:n]`: the first `n` characters. -/
def pyTruncate (n : Nat) (s : String) : String := ⟨s.data.take n⟩

/-! ## Object storage client: `_download_to_temp` (tasks.py lines 12-50)

A download attempt is an environment value: either the transport layer raises,
or the response body arrives as a list of chunk sizes.  Temporary files are
named by the attempt index that created them; the model tracks which files
exist and the sleeps performed, in order. -/

/-- What the network serves on one attempt of `_download_to_temp`. -/
inductive AttemptBody where
  | transportError (e : PyExc)
  | chunks (cs : List Nat)
deriving DecidableEq, Repr

/-- The `ValueError("Audio exceeds maximum allowed size")` raised on overflow. -/
def sizeExc : PyExc := ⟨"Audio exceeds maximum allowed size", "ValueError"⟩

/-- The `RuntimeError("Failed to download audio")` raised when the loop ends
with no recorded error. -/
def runtimeExc : PyExc := ⟨"Failed to download audio", "RuntimeError"⟩

/-- The chunk loop of one attempt: accumulate `written`; raise as soon as
`written` would exceed `maxBytes` (`if written > config.AUDIO_MAX_BYTES`). -/
def chunkOverflow (maxBytes : Nat) : Nat → List Nat → Bool
  | _, [] => false
  | written, c :: rest =>
    if maxBytes < written + c then true else chunkOverflow maxBytes (written + c) rest

/-- Outcome of one attempt body: `some e` when the attempt raises `e`,
`none` when the body is streamed to the file completely. -/
def attemptResult (maxBytes : Nat) : AttemptBody → Option PyExc
  | .transportError e => some e
  | .chunks cs => if chunkOverflow maxBytes 0 cs then some sizeExc else none

/-- Result of `_download_to_temp`: the returned path (the index of the attempt
that wrote it) or the raised exception. -/
inductive DownloadResult where
  | ok (path : Nat)
  | err (e : PyExc)
deriving DecidableEq, Repr

/-- The `while attempts < config.AUDIO_MAX_RETRIES` loop of
`_download_to_temp`.  `fuel` is the number of attempts still allowed, `idx`
the index of the next attempt, `backoff` the current backoff, `lastExc` the
`last_exc` variable, `files` the temp files currently on disk and `sleeps` the
`time.sleep` calls made so far.  Each attempt first creates its temp file
(`tempfile.mkstemp`).  On an exception the `except` block records it and
sleeps, then the `finally` block removes the attempt's file (since
`last_exc is not None`).  On success the function returns the path — but the
`finally` block still runs, and when a previous attempt had failed
(`last_exc is not None`) it removes the just-written file before the return.
After the loop the recorded error is re-raised, or a `RuntimeError` when none
was recorded. -/
def downloadGo (maxBytes : Nat) (env : Nat → AttemptBody) :
    Nat → Nat → Nat → Option PyExc → List Nat → List Nat →
    DownloadResult × List Nat × List Nat
  | 0, _, _, lastExc, files, sleeps =>
    (.err (lastExc.getD runtimeExc), files, sleeps)
  | fuel + 1, idx, backoff, lastExc, files, sleeps =>
    let files1 := files ++ [idx]
    match attemptResult maxBytes (env idx) with
    | none =>
      match lastExc with
      | some _ => (.ok idx, files1.erase idx, sleeps)
      | none => (.ok idx, files1, sleeps)
    | some e =>
      downloadGo maxBytes env fuel (idx + 1) (min (2 * backoff) 8) (some e)
        (files1.erase idx) (sleeps ++ [backoff])

/-- `_download_to_temp`, with the per-attempt network behaviour as an
environment.  Returns the result, the temp files left on disk, and the list of
backoff sleeps performed (in seconds; the float backoff only ever takes the
integral values 1, 2, 4, 8). -/
def downloadToTemp (maxBytes maxRetries : Nat) (env : Nat → AttemptBody) :
    DownloadResult × List Nat × List Nat :=
  downloadGo maxBytes env maxRetries 0 1 none [] []

/-- The backoff sequence: starting value `b`, doubled and capped at 8 after
each sleep, for `n` sleeps. -/
def backSeq : Nat → Nat → List Nat
  | _, 0 => []
  | b, n + 1 => b :: backSeq (min (2 * b) 8) n

/-! ## Data model (`models.py`) -/

/-- `EntryStatus` (models.py lines 18-24). -/
inductive EntryStatus where
  | uploaded
  | processing
  | transcribed
  | failed
deriving DecidableEq, Repr

/-- `Entry` (models.py lines 27-41).  Timestamps are abstract integers. -/
structure Entry where
  id : Nat
  userId : Nat
  createdAt : Int
  durationS : Nat
  status : EntryStatus
  audioUrl : Option String
  sizeBytes : Option Nat
  language : Option String
  transcriptRaw : Option String
  transcriptClean : Option String
  failureReason : Option String
  idempotencyKey : Option String
deriving DecidableEq, Repr

/-- `ExportStatus` (models.py lines 44-50). -/
inductive ExportStatus where
  | pending
  | processing
  | complete
  | failed
deriving DecidableEq, Repr

/-- `ExportRequest` (models.py lines 53-62). -/
structure ExportRequest where
  id : Nat
  userId : Nat
  dateFrom : Int
  dateTo : Int
  status : ExportStatus
  resultUrl : Option String
  createdAt : Int
deriving DecidableEq, Repr

/-! ## The store (`session.get` / `session.add` + `commit`)

The relational store is a list of rows; `get` finds the row by primary key and
`save` writes the row back in place. -/

/-- `session.get(Entry, entry_id)`. -/
def getEntry (store : List Entry) (entryId : Nat) : Option Entry :=
  store.find? (fun e => e.id = entryId)

/-- `session.add(entry); session.commit()`: the row with this id now holds the
given value. -/
def saveEntry (store : List Entry) (e : Entry) : List Entry :=
  store.map (fun x => if x.id = e.id then e else x)

/-- `session.get(ExportRequest, export_id)`. -/
def getExport (store : List ExportRequest) (exportId : Nat) : Option ExportRequest :=
  store.find? (fun e => e.id = exportId)

/-- `session.add(export); session.commit()` for export rows. -/
def saveExport (store : List ExportRequest) (e : ExportRequest) : List ExportRequest :=
  store.map (fun x => if x.id = e.id then e else x)

/-- `object_public_url` in placeholder storage mode (storage.py lines 60-67;
`STORAGE_BACKEND` defaults to `"placeholder"`). -/
def objectPublicUrl (objectKey : String) : String :=
  "https://cdn.example.com/" ++ objectKey

/-! ## Cleanup engine: `_cleanup_with_llm` (tasks.py lines 74-108) -/

/-- What `data.get("choices", [{}])[0].get("message", {}).get("content")`
evaluates to when the request and JSON parse succeed. -/
inductive LLMContent where
  | absent
  | notString
  | str (s : String)
deriving DecidableEq, Repr

/-- Outcome of the provider round trip inside the `try` block: either some
step raised (request, `raise_for_status`, `.json()`, or the indexing in the
content extraction), or a content value was extracted. -/
inductive LLMResponse where
  | raised
  | content (c : LLMContent)
deriving DecidableEq, Repr

/-- Cleanup-provider configuration and behaviour: `config.LLM_PROVIDER`,
`config.LLM_API_KEY`, and what the provider call would yield. -/
structure LLMEnv where
  provider : String
  apiKey : Option String
  response : LLMResponse
deriving DecidableEq, Repr

/-- `_cleanup_with_llm`.  The argument is optional because the callers pass
whatever is in the entry row (Python is dynamically typed); `if not text`
treats `None` and `""` alike.  A well-formed non-blank content string is
returned stripped; every other path returns the input unchanged. -/
def cleanupWithLLM (env : LLMEnv) (text : Option String) : Option String :=
  if !optTruthy text || pyLower env.provider == "none" then text
  else if pyLower env.provider == "openai" && optTruthy env.apiKey then
    match env.response with
    | .raised => text
    | .content (.str s) => if pyStrip s != "" then some (pyStrip s) else text
    | .content _ => text
  else text

/-! ## Transcription job: `transcribe_entry` (tasks.py lines 118-163) -/

/-- Outcome of `_whisper_transcribe(entry.audio_url)`: the produced text (the
function itself returns a placeholder string rather than raising when the
model runtime is missing), or the exception propagated from the audio download
or the model. -/
inductive WhisperOutcome where
  | ok (text : String)
  | exc (e : PyExc)
deriving DecidableEq, Repr

/-- Configuration and external behaviour seen by one execution of
`transcribe_entry`: `config.TRANSCRIPTION_BACKEND`, the whisper outcome, and
the cleanup provider. -/
structure TranscribeEnv where
  backend : String
  whisperResult : WhisperOutcome
  llm : LLMEnv
deriving DecidableEq, Repr

/-- The dict returned by `transcribe_entry`. -/
inductive TaskResult where
  | notFound (entryId : Nat)
  | idempotentOk (entryId : Nat) (status : EntryStatus)
  | done (ok : Bool) (entryId : Nat) (status : EntryStatus)
deriving DecidableEq, Repr

/-- The guard of the model-backed branch:
`config.TRANSCRIPTION_BACKEND.lower() == "whisper" and entry.audio_url`. -/
def whisperBranch (env : TranscribeEnv) (e : Entry) : Bool :=
  pyLower env.backend == "whisper" && optTruthy e.audioUrl

/-- The `try`/`except` body of `transcribe_entry` (tasks.py lines 142-158):
run the engine pipeline and set the terminal fields.  In the whisper branch
`entry.transcript_raw = text or entry.transcript_raw` keeps the old value only
when the new text is empty; in the stub branch
`entry.transcript_raw = entry.transcript_raw or "[raw transcript placeholder]"`
keeps a truthy old value.  On an exception the status becomes `failed` and the
failure reason is `(str(e) or e.__class__.__name__)[:1000]`. -/
def runPipelineBody (env : TranscribeEnv) (e : Entry) : Entry :=
  if whisperBranch env e then
    match env.whisperResult with
    | .exc ex =>
      { e with status := .failed,
               failureReason := some (pyTruncate 1000 (pyExcText ex)) }
    | .ok text =>
      let raw1 : Option String := if text != "" then some text else e.transcriptRaw
      let cleaned : Option String := cleanupWithLLM env.llm (some (optStr raw1))
      let clean1 : Option String :=
        if optTruthy e.transcriptClean then e.transcriptClean
        else if optTruthy cleaned then some (pyStrip (optStr cleaned)) else none
      { e with transcriptRaw := raw1, transcriptClean := clean1,
               status := .transcribed, failureReason := none }
  else
    let raw1 : Option String :=
      if optTruthy e.transcriptRaw then e.transcriptRaw
      else some "[raw transcript placeholder]"
    let cleaned : Option String := cleanupWithLLM env.llm raw1
    let clean1 : Option String :=
      if optTruthy e.transcriptClean then e.transcriptClean else cleaned
    { e with transcriptRaw := raw1, transcriptClean := clean1,
             status := .transcribed, failureReason := none }

/-- `if entry.idempotency_key and entry.idempotency_key == idempotency_key`
(tasks.py line 137), with `if idempotency_key:` (line 136) as the outer guard. -/
def tokenDup (e : Entry) (key : Option String) : Bool :=
  optTruthy key && optTruthy e.idempotencyKey && decide (e.idempotencyKey = key)

/-- `if not entry.idempotency_key: entry.idempotency_key = idempotency_key`
(tasks.py lines 139-140), under the `if idempotency_key:` guard. -/
def adoptKey (e : Entry) (key : Option String) : Entry :=
  if optTruthy key && !optTruthy e.idempotencyKey
  then { e with idempotencyKey := key } else e

/-- `transcribe_entry(entry_id, idempotency_key)`.  Returns the store after
the job (the early returns commit nothing; the pipeline path always commits in
its `finally` block), the returned dict, and whether the engine pipeline ran. -/
def transcribeEntry (env : TranscribeEnv) (store : List Entry) (entryId : Nat)
    (key : Option String) : List Entry × TaskResult × Bool :=
  match getEntry store entryId with
  | none => (store, .notFound entryId, false)
  | some entry =>
    if entry.status = .transcribed then
      (store, .idempotentOk entryId entry.status, false)
    else if tokenDup entry key then
      (store, .idempotentOk entryId entry.status, false)
    else
      let fin := runPipelineBody env (adoptKey entry key)
      (saveEntry store fin, .done (decide (fin.status = .transcribed)) entryId fin.status, true)

/-! ## Entry routes (`routes/entries.py`)

The HTTP layer (auth resolution, serialization) is out of scope; each handler
is modelled as its store mutation, returning `none` where the handler raises
an `HTTPException`.  Storage is in placeholder mode with upload verification
disabled (`VERIFY_UPLOADS` defaults to false), so the optional
`object_exists` rejection path is never taken. -/

/-- `finalize_upload` (entries.py lines 87-141): set `audio_url` from the
object key, optionally update size and language, move status to `processing`
and assign the freshly generated idempotency key (`uuid.uuid4().hex`, passed
here as `freshKey`).  The handler then enqueues
`transcribe_entry(entry.id, idempotency_key=freshKey)`. -/
def finalizeUpload (store : List Entry) (entryId userId : Nat) (objectKey : String)
    (sizeBytes : Option Nat) (language : Option String) (freshKey : String) :
    Option (List Entry) :=
  match getEntry store entryId with
  | none => none
  | some e =>
    if e.userId != userId then none
    else
      let e1 : Entry :=
        { e with
          audioUrl := some (objectPublicUrl objectKey),
          sizeBytes := match sizeBytes with | some n => some n | none => e.sizeBytes,
          language := match language with | some l => some l | none => e.language,
          status := .processing,
          idempotencyKey := some freshKey }
      some (saveEntry store e1)

/-- The finalize flow of the spec's data-flow section: finalize the upload
and then run the transcription job that finalize enqueued, with the very
token finalize stored. -/
def finalizeThenTranscribe (env : TranscribeEnv) (store : List Entry)
    (entryId userId : Nat) (objectKey : String) (sizeBytes : Option Nat)
    (language : Option String) (freshKey : String) :
    Option (List Entry × TaskResult × Bool) :=
  match finalizeUpload store entryId userId objectKey sizeBytes language freshKey with
  | none => none
  | some store1 => some (transcribeEntry env store1 entryId (some freshKey))

/-- `enqueue_transcription` (entries.py lines 150-190): move the entry to
`processing` from whatever status it has, and store
`payload.idempotency_key or uuid.uuid4().hex` as the new key.  Returns the
new store and the key the job is enqueued with. -/
def enqueueTranscription (store : List Entry) (entryId userId : Nat)
    (payloadKey : Option String) (freshKey : String) :
    Option (List Entry × String) :=
  match getEntry store entryId with
  | none => none
  | some e =>
    if e.userId != userId then none
    else
      let key := if optTruthy payloadKey then optStr payloadKey else freshKey
      let e1 : Entry := { e with status := .processing, idempotencyKey := some key }
      some (saveEntry store e1, key)

/-- The `EntryUpdateRequest` fields that were provided (pydantic
`exclude_unset`); `none` means the field was absent from the payload. -/
structure UpdatePayload where
  status : Option String := none
  audioUrl : Option String := none
  sizeBytes : Option Nat := none
  language : Option String := none
  transcriptRaw : Option String := none
  transcriptClean : Option String := none
deriving DecidableEq, Repr

/-- Whether any field was provided (`if not updates: raise 400`). -/
def hasUpdates (p : UpdatePayload) : Bool :=
  p.status.isSome || p.audioUrl.isSome || p.sizeBytes.isSome || p.language.isSome ||
  p.transcriptRaw.isSome || p.transcriptClean.isSome

/-- The membership check against
`{UPLOADED, PROCESSING, TRANSCRIBED, FAILED}` (entries.py lines 294-299),
returning the parsed status. -/
def statusOfString (s : String) : Option EntryStatus :=
  if s = "uploaded" then some .uploaded
  else if s = "processing" then some .processing
  else if s = "transcribed" then some .transcribed
  else if s = "failed" then some .failed
  else none

/-- The `setattr` loop of `update_entry` (entries.py lines 307-308). -/
def applyUpdates (e : Entry) (p : UpdatePayload) : Entry :=
  { e with
    status := match p.status with
      | some s => (statusOfString s).getD e.status
      | none => e.status,
    audioUrl := match p.audioUrl with | some v => some v | none => e.audioUrl,
    sizeBytes := match p.sizeBytes with | some v => some v | none => e.sizeBytes,
    language := match p.language with | some v => some v | none => e.language,
    transcriptRaw := match p.transcriptRaw with | some v => some v | none => e.transcriptRaw,
    transcriptClean := match p.transcriptClean with | some v => some v | none => e.transcriptClean }

/-- `update_entry` (entries.py lines 282-326): reject an empty payload or an
invalid status string, otherwise write the provided fields. -/
def updateEntry (store : List Entry) (entryId userId : Nat) (p : UpdatePayload) :
    Option (List Entry) :=
  if !hasUpdates p then none
  else
    let badStatus := match p.status with
      | some s => (statusOfString s).isNone
      | none => false
    if badStatus then none
    else match getEntry store entryId with
      | none => none
      | some e =>
        if e.userId != userId then none
        else some (saveEntry store (applyUpdates e p))

/-! ## Export routes and job (`routes/exports.py`, tasks.py lines 166-247) -/

/-- `create_export` (exports.py lines 38-59): reject an inverted date range,
otherwise create the row with status `processing` and no result URL. -/
def createExport (newId userId : Nat) (dateFrom dateTo createdAt : Int) :
    Option ExportRequest :=
  if dateFrom > dateTo then none
  else some ⟨newId, userId, dateFrom, dateTo, .processing, none, createdAt⟩

/-- Outcome of the `try` block of `generate_export`: the URL returned by
`upload_file` when the archive is built and uploaded, or the exception raised
by any step (per-entry audio fetch failures are swallowed inside the block and
never reach here). -/
inductive ExportOutcome where
  | success (uploadUrl : String)
  | failure (e : PyExc)
deriving DecidableEq, Repr

/-- `f"exports/{export.user_id}/{export.id}.zip"`. -/
def exportObjectKey (userId exportId : Nat) : String :=
  "exports/" ++ toString userId ++ "/" ++ toString exportId ++ ".zip"

/-- `generate_export(export_id)` (tasks.py lines 166-247).  Returns the final
store together with the sequence of export-row states written (committed) by
the job, in order: first the `processing` write, then the terminal write.
On success `result_url` becomes `download_url or object_public_url(key)`; on
failure only the status is set to `failed`. -/
def generateExport (outcome : ExportOutcome) (store : List ExportRequest)
    (exportId : Nat) : List ExportRequest × List ExportRequest :=
  match getExport store exportId with
  | none => (store, [])
  | some ex =>
    let ex1 : ExportRequest := { ex with status := .processing }
    let store1 := saveExport store ex1
    match outcome with
    | .success uploadUrl =>
      let url := if uploadUrl != "" then uploadUrl
                 else objectPublicUrl (exportObjectKey ex1.userId ex1.id)
      let ex2 : ExportRequest := { ex1 with status := .complete, resultUrl := some url }
      (saveExport store1 ex2, [ex1, ex2])
    | .failure _ =>
      let ex2 : ExportRequest := { ex1 with status := .failed }
      (saveExport store1 ex2, [ex1, ex2])

/-- The export completeness invariant: the result location is set iff the
status is `complete`. -/
def exportInvariant (e : ExportRequest) : Prop :=
  e.resultUrl ≠ none ↔ e.status = .complete

/-! ## Store lemmas -/

theorem getEntry_id {store : List Entry} {entryId : Nat} {e : Entry}
    (h : getEntry store entryId = some e) : e.id = entryId := by
  have := List.find?_some h
  simpa using this

theorem getEntry_saveEntry {store : List Entry} {entryId : Nat} {e : Entry}
    (x : Entry) (h : getEntry store entryId = some e) (hx : x.id = entryId) :
    getEntry (saveEntry store x) entryId = some x := by
  induction store with
  | nil => simp [getEntry] at h
  | cons y t ih =>
    by_cases hy : y.id = entryId
    · have hyx : y.id = x.id := by rw [hy, hx]
      unfold getEntry saveEntry
      simp only [List.map_cons, if_pos hyx]
      simp [hx]
    · have h2 : getEntry t entryId = some e := by
        unfold getEntry at h ⊢
        simpa [hy] using h
      have hyx : ¬ y.id = x.id := by rw [hx]; exact hy
      have h3 := ih h2
      unfold getEntry saveEntry at h3 ⊢
      simp only [List.map_cons, if_neg hyx]
      simpa [hy] using h3

theorem saveEntry_saveEntry (store : List Entry) (x : Entry) :
    saveEntry (saveEntry store x) x = saveEntry store x := by
  induction store with
  | nil => rfl
  | cons y t ih =>
    simp only [saveEntry, List.map_cons] at ih ⊢
    by_cases hy : y.id = x.id
    · simp [hy, ih]
    · simp [hy, ih]

/-! ## Pipeline lemmas -/

theorem runPipelineBody_id (env : TranscribeEnv) (e : Entry) :
    (runPipelineBody env e).id = e.id := by
  unfold runPipelineBody
  split
  · cases env.whisperResult <;> rfl
  · rfl

theorem runPipelineBody_audioUrl (env : TranscribeEnv) (e : Entry) :
    (runPipelineBody env e).audioUrl = e.audioUrl := by
  unfold runPipelineBody
  split
  · cases env.whisperResult <;> rfl
  · rfl

theorem runPipelineBody_key (env : TranscribeEnv) (e : Entry) :
    (runPipelineBody env e).idempotencyKey = e.idempotencyKey := by
  unfold runPipelineBody
  split
  · cases env.whisperResult <;> rfl
  · rfl

theorem adoptKey_id (e : Entry) (k : Option String) : (adoptKey e k).id = e.id := by
  unfold adoptKey; split <;> rfl

theorem adoptKey_audioUrl (e : Entry) (k : Option String) :
    (adoptKey e k).audioUrl = e.audioUrl := by
  unfold adoptKey; split <;> rfl

theorem adoptKey_of_falsy_key (e : Entry) (k : Option String)
    (hk : optTruthy k = false) : adoptKey e k = e := by
  unfold adoptKey; simp [hk]

theorem adoptKey_of_truthy_stored (e : Entry) (k : Option String)
    (he : optTruthy e.idempotencyKey = true) : adoptKey e k = e := by
  unfold adoptKey; simp [he]

theorem adoptKey_adopted (e : Entry) (k : Option String)
    (hk : optTruthy k = true) (he : optTruthy e.idempotencyKey = false) :
    (adoptKey e k).idempotencyKey = k := by
  unfold adoptKey; simp [hk, he]

/-- Every pipeline run ends terminal, and a `failed` end forces the whisper
branch with an exception outcome. -/
theorem runPipelineBody_status (env : TranscribeEnv) (e : Entry) :
    (runPipelineBody env e).status = .transcribed ∨
      ((runPipelineBody env e).status = .failed ∧ whisperBranch env e = true ∧
        ∃ ex, env.whisperResult = .exc ex) := by
  unfold runPipelineBody
  split
  · rename_i hb
    cases hw : env.whisperResult with
    | exc ex => exact Or.inr ⟨rfl, hb, ex, rfl⟩
    | ok text => exact Or.inl rfl
  · exact Or.inl rfl

/-- The failure write is a fixed point of the pipeline body: re-running the
pipeline on an entry it just failed produces the identical entry. -/
theorem runPipelineBody_exc_fix (env : TranscribeEnv) (e : Entry) (ex : PyExc)
    (hb : whisperBranch env e = true) (hexc : env.whisperResult = .exc ex) :
    runPipelineBody env (runPipelineBody env e) = runPipelineBody env e := by
  have hfix : runPipelineBody env e =
      { e with status := .failed,
               failureReason := some (pyTruncate 1000 (pyExcText ex)) } := by
    unfold runPipelineBody
    rw [if_pos hb, hexc]
  rw [hfix]
  have hb2 : whisperBranch env
      { e with status := EntryStatus.failed,
               failureReason := some (pyTruncate 1000 (pyExcText ex)) } = true := hb
  unfold runPipelineBody
  rw [if_pos hb2, hexc]

/-! ## Unfolding lemmas for `transcribeEntry` -/

theorem transcribeEntry_notFound {env : TranscribeEnv} {store : List Entry}
    {entryId : Nat} {k : Option String} (h : getEntry store entryId = none) :
    transcribeEntry env store entryId k = (store, .notFound entryId, false) := by
  unfold transcribeEntry; rw [h]

theorem transcribeEntry_already {env : TranscribeEnv} {store : List Entry}
    {entryId : Nat} {k : Option String} {e : Entry} (h : getEntry store entryId = some e)
    (hs : e.status = .transcribed) :
    transcribeEntry env store entryId k = (store, .idempotentOk entryId e.status, false) := by
  unfold transcribeEntry; rw [h]; simp [hs]

theorem transcribeEntry_dup {env : TranscribeEnv} {store : List Entry}
    {entryId : Nat} {k : Option String} {e : Entry} (h : getEntry store entryId = some e)
    (hs : ¬ e.status = .transcribed) (hd : tokenDup e k = true) :
    transcribeEntry env store entryId k = (store, .idempotentOk entryId e.status, false) := by
  unfold transcribeEntry; rw [h]; simp [hs, hd]

/-! ## Download-loop lemmas -/

theorem erase_append_self (a : Nat) :
    ∀ l : List Nat, a ∉ l → (l ++ [a]).erase a = l := by
  intro l
  induction l with
  | nil => intro _; simp
  | cons b t ih =>
    intro h
    simp only [List.mem_cons, not_or] at h
    have hba : ¬ b = a := fun hba => h.1 hba.symm
    simp only [List.cons_append, List.erase_cons]
    rw [if_neg (by simpa using hba), ih h.2]

/-- The per-attempt size check fires exactly when the body's total size
exceeds the limit. -/
theorem chunkOverflow_iff (m : Nat) :
    ∀ (cs : List Nat) (w : Nat), w ≤ m →
      (chunkOverflow m w cs = true ↔ m < w + cs.sum) := by
  intro cs
  induction cs with
  | nil =>
    intro w hw
    simp only [chunkOverflow, List.sum_nil]
    constructor
    · intro h; cases h
    · omega
  | cons c t ih =>
    intro w hw
    simp only [chunkOverflow, List.sum_cons]
    by_cases h : m < w + c
    · simp [h]
      omega
    · rw [if_neg h, ih (w + c) (by omega)]
      omega

/-- When every allowed attempt fails, the loop performs one capped-backoff
sleep per attempt, leaves no file behind, and re-raises the last error. -/
theorem downloadGo_allFail (m : Nat) (env : Nat → AttemptBody) (errF : Nat → PyExc) :
    ∀ (fuel idx b : Nat) (lastE : Option PyExc) (sleeps : List Nat), 0 < fuel →
      (∀ j, j < fuel → attemptResult m (env (idx + j)) = some (errF (idx + j))) →
      downloadGo m env fuel idx b lastE [] sleeps =
        (.err (errF (idx + fuel - 1)), [], sleeps ++ backSeq b fuel) := by
  intro fuel
  induction fuel with
  | zero => intro idx b lastE sleeps h; omega
  | succ f ih =>
    intro idx b lastE sleeps _ hfail
    have h0 : attemptResult m (env idx) = some (errF idx) := by
      simpa using hfail 0 (by omega)
    simp only [downloadGo, h0, List.nil_append, List.erase_cons_head]
    cases f with
    | zero =>
      simp [downloadGo, backSeq]
    | succ f2 =>
      have hrest : ∀ j, j < f2 + 1 →
          attemptResult m (env (idx + 1 + j)) = some (errF (idx + 1 + j)) := by
        intro j hj
        have := hfail (j + 1) (by omega)
        rwa [show idx + (j + 1) = idx + 1 + j by omega] at this
      rw [ih (idx + 1) (min (2 * b) 8) (some (errF idx)) (sleeps ++ [b]) (by omega) hrest]
      rw [show idx + 1 + (f2 + 1) - 1 = idx + (f2 + 1 + 1) - 1 by omega]
      rw [List.append_assoc]
      rfl

/-- Doubling a capped power of two keeps the closed form. -/
theorem min_double_pow (k : Nat) :
    min (2 * min (2 ^ k) 8) 8 = min (2 ^ (k + 1)) 8 := by
  rcases Nat.le_total (2 ^ k) 8 with h | h
  · rw [Nat.min_eq_left h, Nat.pow_succ, Nat.mul_comm]
  · have h1 : 8 ≤ 2 ^ (k + 1) := le_trans h (Nat.pow_le_pow_right (by norm_num) (by omega))
    rw [Nat.min_eq_right h, Nat.min_eq_right h1]
    norm_num

/-- Closed form of the backoff sequence: the `i`-th sleep is
`min (2 ^ i) 8` seconds. -/
theorem backSeq_pow :
    ∀ (n k : Nat), backSeq (min (2 ^ k) 8) n =
      (List.range n).map (fun i => min (2 ^ (k + i)) 8) := by
  intro n
  induction n with
  | zero => intro k; rfl
  | succ f ih =>
    intro k
    rw [List.range_succ_eq_map]
    simp only [backSeq, min_double_pow, ih (k + 1), List.map_cons, List.map_map]
    refine congrArg₂ _ rfl ?_
    apply List.map_congr_left
    intro a _
    simp only [Function.comp]
    congr 1
    congr 1
    omega

/-- The backoff starts at 1 second: delays are `1, 2, 4, 8, 8, …`. -/
theorem backSeq_one (n : Nat) :
    backSeq 1 n = (List.range n).map (fun i => min (2 ^ i) 8) := by
  have h := backSeq_pow n 0
  simpa using h

/-- When the first `k` attempts fail and attempt `k` then succeeds, the loop
returns the path written by attempt `k` — but the `finally` cleanup, seeing
the recorded earlier error, has already deleted that file (as it has every
failed attempt's file), so no file is left at all. -/
theorem downloadGo_failSucc (m : Nat) (env : Nat → AttemptBody) (errF : Nat → PyExc) :
    ∀ (k fuel idx b : Nat) (lastE : Option PyExc) (sleeps : List Nat), k < fuel →
      (0 < k ∨ lastE.isSome = true) →
      (∀ j, j < k → attemptResult m (env (idx + j)) = some (errF (idx + j))) →
      attemptResult m (env (idx + k)) = none →
      downloadGo m env fuel idx b lastE [] sleeps =
        (.ok (idx + k), [], sleeps ++ backSeq b k) := by
  intro k
  induction k with
  | zero =>
    intro fuel idx b lastE sleeps hk hprev _ hsucc
    obtain ⟨f, rfl⟩ : ∃ f, fuel = f + 1 := ⟨fuel - 1, by omega⟩
    rcases hprev with h0 | hsome
    · omega
    · obtain ⟨e0, rfl⟩ := Option.isSome_iff_exists.mp hsome
      simp only [Nat.add_zero] at hsucc
      simp [downloadGo, hsucc, backSeq]
  | succ j ih =>
    intro fuel idx b lastE sleeps hk _ hfail hsucc
    obtain ⟨f, rfl⟩ : ∃ f, fuel = f + 1 := ⟨fuel - 1, by omega⟩
    have h0 : attemptResult m (env idx) = some (errF idx) := by
      simpa using hfail 0 (by omega)
    simp only [downloadGo, h0, List.nil_append, List.erase_cons_head]
    have hrest : ∀ i, i < j → attemptResult m (env (idx + 1 + i)) = some (errF (idx + 1 + i)) := by
      intro i hi
      have := hfail (i + 1) (by omega)
      rwa [show idx + (i + 1) = idx + 1 + i by omega] at this
    have hsucc2 : attemptResult m (env (idx + 1 + j)) = none := by
      rwa [show idx + (j + 1) = idx + 1 + j by omega] at hsucc
    rw [ih f (idx + 1) (min (2 * b) 8) (some (errF idx)) (sleeps ++ [b]) (by omega)
      (Or.inr rfl) hrest hsucc2]
    rw [show idx + 1 + j = idx + (j + 1) by omega, List.append_assoc]
    rfl

/-- Once an error has been recorded, a successful return's path is never among
the files left on disk. -/
theorem downloadGo_ok_not_mem (m : Nat) (env : Nat → AttemptBody) :
    ∀ (fuel idx b : Nat) (e0 : PyExc) (files sleeps : List Nat)
      (p : Nat) (fs ss : List Nat),
      (∀ j ∈ files, j < idx) →
      downloadGo m env fuel idx b (some e0) files sleeps = (.ok p, fs, ss) →
      p ∉ fs := by
  intro fuel
  induction fuel with
  | zero =>
    intro idx b e0 files sleeps p fs ss _ h
    simp [downloadGo] at h
  | succ f ih =>
    intro idx b e0 files sleeps p fs ss hinv h
    have hnotmem : idx ∉ files := fun hmem => by
      have := hinv idx hmem; omega
    cases hres : attemptResult m (env idx) with
    | none =>
      simp only [downloadGo, hres] at h
      cases h
      rw [erase_append_self idx files hnotmem]
      exact hnotmem
    | some e =>
      simp only [downloadGo, hres] at h
      rw [erase_append_self idx files hnotmem] at h
      exact ih (idx + 1) (min (2 * b) 8) e files (sleeps ++ [b]) p fs ss
        (fun j hj => by have := hinv j hj; omega) h

theorem transcribeEntry_run {env : TranscribeEnv} {store : List Entry}
    {entryId : Nat} {k : Option String} {e : Entry} (h : getEntry store entryId = some e)
    (hs : ¬ e.status = .transcribed) (hd : tokenDup e k = false) :
    transcribeEntry env store entryId k =
      (saveEntry store (runPipelineBody env (adoptKey e k)),
        .done (decide ((runPipelineBody env (adoptKey e k)).status = .transcribed)) entryId
          (runPipelineBody env (adoptKey e k)).status, true) := by
  unfold transcribeEntry; rw [h]; simp [hs, hd]

/-! ## Claim theorems -/

/-- C7: on any transport or size failure the download is retried up to the
configured maximum attempt count, with exponential backoff delays starting at
1 second, doubling, and capped at 8 seconds (delay `i` is `min (2^i) 8`, i.e.
1s, 2s, 4s, 8s, 8s, …); after exhausting all attempts the last error
encountered is surfaced to the caller. -/
theorem C7_retry_backoff (m n : Nat) (env : Nat → AttemptBody) (errF : Nat → PyExc)
    (hn : 0 < n) (hfail : ∀ i, i < n → attemptResult m (env i) = some (errF i)) :
    downloadToTemp m n env =
      (.err (errF (n - 1)), [], (List.range n).map (fun i => min (2 ^ i) 8)) := by
  unfold downloadToTemp
  have h := downloadGo_allFail m env errF n 0 1 none [] hn
    (by intro j hj; simpa using hfail j hj)
  simpa [backSeq_one] using h

/-- Witness for C7: three transport failures give three attempts, delays
1s and 2s and 4s, and the last error surfaced. -/
theorem C7_retry_backoff_witness :
    downloadToTemp 10 3 (fun _ => .transportError ⟨"boom", "ConnectionError"⟩) =
      (.err ⟨"boom", "ConnectionError"⟩, [], [1, 2, 4]) := by
  have h := C7_retry_backoff 10 3 (fun _ => .transportError ⟨"boom", "ConnectionError"⟩)
    (fun _ => ⟨"boom", "ConnectionError"⟩) (by decide) (fun i _ => rfl)
  exact h.trans (by decide)

/-- C6: a download whose byte counter exceeds the configured maximum on every
attempt (as happens when the remote resource is larger than the cap) fails
with the size-cap error (`ValueError("Audio exceeds maximum allowed size")`,
the code's `PayloadTooLarge`), and every partially written temporary file is
deleted: no file is left on disk. -/
theorem C6_size_cap (m n : Nat) (env : Nat → AttemptBody) (body : List Nat)
    (hn : 0 < n) (henv : ∀ i, i < n → env i = .chunks body) (hbig : m < body.sum) :
    downloadToTemp m n env =
      (.err sizeExc, [], (List.range n).map (fun i => min (2 ^ i) 8)) := by
  have hover : chunkOverflow m 0 body = true :=
    (chunkOverflow_iff m body 0 (by omega)).mpr (by omega)
  have hfail : ∀ i, i < n → attemptResult m (env i) = some sizeExc := by
    intro i hi
    rw [henv i hi]
    simp [attemptResult, hover]
  unfold downloadToTemp
  have h := downloadGo_allFail m env (fun _ => sizeExc) n 0 1 none [] hn
    (by intro j hj; simpa using hfail (0 + j) (by omega))
  simpa [backSeq_one] using h

/-- Witness for C6: a 60-byte resource against a 50-byte cap, three attempts:
size error surfaced, no file on disk. -/
theorem C6_size_cap_witness :
    downloadToTemp 50 3 (fun _ => .chunks [40, 20]) =
      (.err sizeExc, [], [1, 2, 4]) := by
  have h := C6_size_cap 50 3 (fun _ => .chunks [40, 20]) [40, 20]
    (by decide) (fun i _ => rfl) (by decide)
  exact h.trans (by decide)

/-- C10: when some attempt fails and a later attempt downloads the full body,
the `finally` cleanup (which fires whenever an earlier error was recorded)
deletes the just-written file before the function returns: the call returns
`ok` with a path that is no longer on disk (no file is left at all).  The
returned path refers to an existing file exactly when the very first attempt
succeeds. -/
theorem C10_cleanup_deletes_successful_download (m n : Nat) (env : Nat → AttemptBody) :
    (∀ (k : Nat) (errF : Nat → PyExc), 0 < k → k < n →
      (∀ j, j < k → attemptResult m (env j) = some (errF j)) →
      attemptResult m (env k) = none →
      downloadToTemp m n env = (.ok k, [], backSeq 1 k)) ∧
    (∀ f, n = f + 1 → attemptResult m (env 0) = none →
      downloadToTemp m n env = (.ok 0, [0], [])) ∧
    (∀ p fs ss, downloadToTemp m n env = (.ok p, fs, ss) → p ∈ fs →
      p = 0 ∧ attemptResult m (env 0) = none) := by
  refine ⟨?_, ?_, ?_⟩
  · intro k errF hk hkn hfail hsucc
    unfold downloadToTemp
    have h := downloadGo_failSucc m env errF k n 0 1 none [] hkn (Or.inl hk)
      (by intro j hj; simpa using hfail j hj) (by simpa using hsucc)
    simpa using h
  · intro f hf h0
    subst hf
    unfold downloadToTemp
    simp [downloadGo, h0]
  · intro p fs ss h hmem
    unfold downloadToTemp at h
    cases n with
    | zero => simp [downloadGo] at h
    | succ f =>
      cases h0 : attemptResult m (env 0) with
      | none =>
        simp only [downloadGo, h0, List.nil_append] at h
        cases h
        exact ⟨rfl, rfl⟩
      | some e =>
        simp only [downloadGo, h0, List.nil_append, List.erase_cons_head] at h
        have := downloadGo_ok_not_mem m env f 1 (min (2 * 1) 8) e [] ([] ++ [1]) p fs ss
          (by intro j hj; simp at hj) (by simpa using h)
        exact absurd hmem this

/-- Witness for C10: first attempt fails, second succeeds; the function
returns path 1 but no file exists; and a first-attempt success keeps its
file. -/
theorem C10_cleanup_deletes_successful_download_witness :
    downloadToTemp 50 3 (fun i => if i = 0 then .transportError ⟨"x", "E"⟩ else .chunks [5]) =
      (.ok 1, [], [1]) ∧
    downloadToTemp 50 3 (fun _ => .chunks [5]) = (.ok 0, [0], []) := by
  constructor
  · have h := (C10_cleanup_deletes_successful_download 50 3
      (fun i => if i = 0 then .transportError ⟨"x", "E"⟩ else .chunks [5])).1 1
      (fun _ => ⟨"x", "E"⟩) (by decide) (by decide) (by decide) (by decide)
    exact h.trans (by decide)
  · exact (C10_cleanup_deletes_successful_download 50 3 (fun _ => .chunks [5])).2.1 2
      (by decide) (by decide)

/-- C9: `clean(text)` is the identity when the input is empty or no provider
is configured; it returns the input unchanged when the provider request
raises, the response fails to parse, or the response shape is malformed
(content absent, not a string, or blank); and in every case the result is
either the unchanged input or the provider's non-blank response, trimmed.
The function is total: a cleanup-provider error never escapes the call. -/
theorem C9_cleanup_identity_fallback (env : LLMEnv) (text : Option String) :
    ((optTruthy text = false ∨ pyLower env.provider = "none") →
      cleanupWithLLM env text = text) ∧
    (env.response = .raised → cleanupWithLLM env text = text) ∧
    (env.response = .content .absent → cleanupWithLLM env text = text) ∧
    (env.response = .content .notString → cleanupWithLLM env text = text) ∧
    (∀ s, env.response = .content (.str s) → pyStrip s = "" →
      cleanupWithLLM env text = text) ∧
    (cleanupWithLLM env text = text ∨
      ∃ s, env.response = .content (.str s) ∧ pyStrip s ≠ "" ∧
        cleanupWithLLM env text = some (pyStrip s)) := by
  refine ⟨?_, ?_, ?_, ?_, ?_, ?_⟩
  · rintro (h | h) <;> simp [cleanupWithLLM, h]
  · intro h
    unfold cleanupWithLLM
    split
    · rfl
    · split
      · rw [h]
      · rfl
  · intro h
    unfold cleanupWithLLM
    split
    · rfl
    · split
      · rw [h]
      · rfl
  · intro h
    unfold cleanupWithLLM
    split
    · rfl
    · split
      · rw [h]
      · rfl
  · intro s h hs
    unfold cleanupWithLLM
    split
    · rfl
    · split
      · rw [h]
        simp [hs]
      · rfl
  · unfold cleanupWithLLM
    split
    · exact Or.inl rfl
    · split
      · cases hr : env.response with
        | raised => exact Or.inl rfl
        | content c =>
          cases c with
          | absent => exact Or.inl rfl
          | notString => exact Or.inl rfl
          | str s =>
            by_cases hs : pyStrip s = ""
            · simp [hs]
            · exact Or.inr ⟨s, rfl, hs, by simp [hs]⟩
      · exact Or.inl rfl

/-- Witness for C9: a configured provider whose request raises leaves the
text unchanged; a well-formed response is returned stripped. -/
theorem C9_cleanup_identity_fallback_witness :
    cleanupWithLLM ⟨"openai", some "k", .raised⟩ (some "hi") = some "hi" ∧
    cleanupWithLLM ⟨"openai", some "k", .content (.str " Clean. ")⟩ (some "hi") =
      some "Clean." := by
  constructor
  · exact (C9_cleanup_identity_fallback ⟨"openai", some "k", .raised⟩ (some "hi")).2.1 rfl
  · rcases (C9_cleanup_identity_fallback ⟨"openai", some "k", .content (.str " Clean. ")⟩
      (some "hi")).2.2.2.2.2 with h | ⟨s, hs, _, h⟩
    · exact absurd h (by decide)
    · cases hs
      exact h.trans (by decide)

/-- C5: when the pipeline runs and the engine raises, the job sets status
`failed` and stores the exception's message (or its class name when the
message is empty) truncated to its first 1000 characters, and — on every
path, success or failure — the final entry produced by the pipeline is the
one persisted in the store when the job returns. -/
theorem C5_failure_reason_persisted (env : TranscribeEnv) (store : List Entry)
    (entryId : Nat) (k : Option String) (e : Entry)
    (h : getEntry store entryId = some e) (hs : ¬ e.status = .transcribed)
    (hd : tokenDup e k = false) :
    getEntry (transcribeEntry env store entryId k).1 entryId =
      some (runPipelineBody env (adoptKey e k)) ∧
    (∀ ex, whisperBranch env e = true → env.whisperResult = .exc ex →
      (runPipelineBody env (adoptKey e k)).status = .failed ∧
      (runPipelineBody env (adoptKey e k)).failureReason =
        some (pyTruncate 1000 (pyExcText ex)) ∧
      (pyTruncate 1000 (pyExcText ex)).length = min 1000 (pyExcText ex).length) := by
  have hid : (runPipelineBody env (adoptKey e k)).id = entryId := by
    rw [runPipelineBody_id, adoptKey_id, getEntry_id h]
  constructor
  · rw [transcribeEntry_run h hs hd]
    exact getEntry_saveEntry _ h hid
  · intro ex hb hexc
    have hb2 : whisperBranch env (adoptKey e k) = true := by
      unfold whisperBranch at hb ⊢
      rwa [adoptKey_audioUrl]
    refine ⟨?_, ?_, ?_⟩
    · unfold runPipelineBody
      rw [if_pos hb2, hexc]
    · unfold runPipelineBody
      rw [if_pos hb2, hexc]
    · show ((pyExcText ex).data.take 1000).length = min 1000 (pyExcText ex).length
      rw [List.length_take]
      rfl

/-- Witness for C5: an entry in `processing` with an audio URL, a whisper
backend whose download raises `ValueError("boom")`: the failed entry with the
exception text is what the store holds afterwards. -/
theorem C5_failure_reason_persisted_witness :
    getEntry (transcribeEntry ⟨"whisper", .exc ⟨"boom", "ValueError"⟩, ⟨"none", none, .raised⟩⟩
        [⟨1, 7, 0, 5, .processing, some "https://cdn.example.com/a.m4a", none, none,
          none, none, none, none⟩] 1 (some "t1")).1 1 =
      some (runPipelineBody ⟨"whisper", .exc ⟨"boom", "ValueError"⟩, ⟨"none", none, .raised⟩⟩
        (adoptKey ⟨1, 7, 0, 5, .processing, some "https://cdn.example.com/a.m4a", none, none,
          none, none, none, none⟩ (some "t1"))) ∧
    (runPipelineBody ⟨"whisper", .exc ⟨"boom", "ValueError"⟩, ⟨"none", none, .raised⟩⟩
        (adoptKey ⟨1, 7, 0, 5, .processing, some "https://cdn.example.com/a.m4a", none, none,
          none, none, none, none⟩ (some "t1"))).status = .failed ∧
    (runPipelineBody ⟨"whisper", .exc ⟨"boom", "ValueError"⟩, ⟨"none", none, .raised⟩⟩
        (adoptKey ⟨1, 7, 0, 5, .processing, some "https://cdn.example.com/a.m4a", none, none,
          none, none, none, none⟩ (some "t1"))).failureReason =
      some (pyTruncate 1000 (pyExcText ⟨"boom", "ValueError"⟩)) := by
  have h := C5_failure_reason_persisted
    ⟨"whisper", .exc ⟨"boom", "ValueError"⟩, ⟨"none", none, .raised⟩⟩
    [⟨1, 7, 0, 5, .processing, some "https://cdn.example.com/a.m4a", none, none,
      none, none, none, none⟩] 1 (some "t1")
    ⟨1, 7, 0, 5, .processing, some "https://cdn.example.com/a.m4a", none, none,
      none, none, none, none⟩ rfl (by decide) (by decide)
  have h2 := h.2 ⟨"boom", "ValueError"⟩ (by decide) rfl
  exact ⟨h.1, h2.1, h2.2.1⟩

/-- C2: (a) a job on an already-`transcribed` entry returns success
immediately, without touching the store and without engine work; (b) the same
holds when the supplied token exactly matches the entry's stored token; (c) a
job on an entry with no usable stored token adopts the supplied token; and
(d) running the job a second time with the same entry id and token leaves the
whole store — in particular the final transcript, `transcript_raw` and the
status — exactly as after the first run. -/
theorem C2_idempotency (env : TranscribeEnv) (store : List Entry) (entryId : Nat)
    (k : Option String) (e : Entry) (h : getEntry store entryId = some e) :
    (e.status = .transcribed →
      transcribeEntry env store entryId k = (store, .idempotentOk entryId e.status, false)) ∧
    (¬ e.status = .transcribed → tokenDup e k = true →
      transcribeEntry env store entryId k = (store, .idempotentOk entryId e.status, false)) ∧
    (¬ e.status = .transcribed → optTruthy k = true → optTruthy e.idempotencyKey = false →
      ∃ e2, getEntry (transcribeEntry env store entryId k).1 entryId = some e2 ∧
        e2.idempotencyKey = k) ∧
    ((transcribeEntry env (transcribeEntry env store entryId k).1 entryId k).1 =
      (transcribeEntry env store entryId k).1) := by
  refine ⟨fun h1 => transcribeEntry_already h h1, fun h1 h2 => transcribeEntry_dup h h1 h2,
    ?_, ?_⟩
  · intro h1 hk hek
    have hd : tokenDup e k = false := by
      unfold tokenDup
      simp [hek]
    rw [transcribeEntry_run h h1 hd]
    have hid : (runPipelineBody env (adoptKey e k)).id = entryId := by
      rw [runPipelineBody_id, adoptKey_id, getEntry_id h]
    refine ⟨runPipelineBody env (adoptKey e k), getEntry_saveEntry _ h hid, ?_⟩
    rw [runPipelineBody_key, adoptKey_adopted e k hk hek]
  · by_cases h1 : e.status = .transcribed
    · rw [transcribeEntry_already h h1, transcribeEntry_already h h1]
    · by_cases hd : tokenDup e k = true
      · rw [transcribeEntry_dup h h1 hd, transcribeEntry_dup h h1 hd]
      · have hd2 : tokenDup e k = false := by
          revert hd; cases tokenDup e k <;> simp
        rw [transcribeEntry_run h h1 hd2]
        have hid : (runPipelineBody env (adoptKey e k)).id = entryId := by
          rw [runPipelineBody_id, adoptKey_id, getEntry_id h]
        have hget2 : getEntry (saveEntry store (runPipelineBody env (adoptKey e k))) entryId =
            some (runPipelineBody env (adoptKey e k)) :=
          getEntry_saveEntry _ h hid
        rcases runPipelineBody_status env (adoptKey e k) with hT | ⟨hF, hb, ex, hexc⟩
        · rw [transcribeEntry_already hget2 hT]
        · have hns : ¬ (runPipelineBody env (adoptKey e k)).status = .transcribed := by
            rw [hF]; simp
          by_cases hd3 : tokenDup (runPipelineBody env (adoptKey e k)) k = true
          · rw [transcribeEntry_dup hget2 hns hd3]
          · have hd3f : tokenDup (runPipelineBody env (adoptKey e k)) k = false := by
              revert hd3; cases tokenDup (runPipelineBody env (adoptKey e k)) k <;> simp
            rw [transcribeEntry_run hget2 hns hd3f]
            have hadopt2 : adoptKey (runPipelineBody env (adoptKey e k)) k =
                runPipelineBody env (adoptKey e k) := by
              cases hkk : optTruthy k with
              | false => exact adoptKey_of_falsy_key _ k hkk
              | true =>
                cases hek : optTruthy e.idempotencyKey with
                | true =>
                  have hfk : optTruthy
                      (runPipelineBody env (adoptKey e k)).idempotencyKey = true := by
                    rw [runPipelineBody_key, adoptKey_of_truthy_stored e k hek]
                    exact hek
                  exact adoptKey_of_truthy_stored _ k hfk
                | false =>
                  exfalso
                  have hfk2 : (runPipelineBody env (adoptKey e k)).idempotencyKey = k := by
                    rw [runPipelineBody_key, adoptKey_adopted e k hkk hek]
                  apply hd3
                  unfold tokenDup
                  rw [hfk2]
                  simp [hkk]
            rw [hadopt2, runPipelineBody_exc_fix env (adoptKey e k) ex hb hexc,
              saveEntry_saveEntry]

/-- Witness for C2: a `processing` entry with no stored token, stub backend,
supplied token `"t1"`: the token is adopted, a second invocation leaves the
store unchanged, and the short-circuit cases answer idempotently. -/
theorem C2_idempotency_witness :
    (∃ e2, getEntry (transcribeEntry ⟨"stub", .ok "", ⟨"none", none, .raised⟩⟩
        [⟨1, 7, 0, 5, .processing, none, none, none, none, none, none, none⟩]
        1 (some "t1")).1 1 = some e2 ∧ e2.idempotencyKey = some "t1") ∧
    ((transcribeEntry ⟨"stub", .ok "", ⟨"none", none, .raised⟩⟩
        (transcribeEntry ⟨"stub", .ok "", ⟨"none", none, .raised⟩⟩
          [⟨1, 7, 0, 5, .processing, none, none, none, none, none, none, none⟩]
          1 (some "t1")).1 1 (some "t1")).1 =
      (transcribeEntry ⟨"stub", .ok "", ⟨"none", none, .raised⟩⟩
        [⟨1, 7, 0, 5, .processing, none, none, none, none, none, none, none⟩]
        1 (some "t1")).1) ∧
    transcribeEntry ⟨"stub", .ok "", ⟨"none", none, .raised⟩⟩
        [⟨2, 7, 0, 5, .transcribed, none, none, none, some "r", some "c", none, some "t0"⟩]
        2 (some "t0") =
      ([⟨2, 7, 0, 5, .transcribed, none, none, none, some "r", some "c", none, some "t0"⟩],
        .idempotentOk 2 .transcribed, false) := by
  have h := C2_idempotency ⟨"stub", .ok "", ⟨"none", none, .raised⟩⟩
    [⟨1, 7, 0, 5, .processing, none, none, none, none, none, none, none⟩] 1 (some "t1")
    ⟨1, 7, 0, 5, .processing, none, none, none, none, none, none, none⟩ rfl
  have h2 := C2_idempotency ⟨"stub", .ok "", ⟨"none", none, .raised⟩⟩
    [⟨2, 7, 0, 5, .transcribed, none, none, none, some "r", some "c", none, some "t0"⟩]
    2 (some "t0")
    ⟨2, 7, 0, 5, .transcribed, none, none, none, some "r", some "c", none, some "t0"⟩ rfl
  exact ⟨h.2.2.1 (by decide) (by decide) (by decide), h.2.2.2, h2.1 rfl⟩

/-- C1 (failing input): finalize stores the fresh token on the entry and then
enqueues the job with that same token, so the job's duplicate check
(`entry.idempotency_key == idempotency_key`) fires on the very first
delivery: the job returns an "idempotent" success without running the engine
and the entry is left in `processing` — not in a terminal status as the spec's
data flow requires. -/
theorem C1_finalize_then_job_stuck_in_processing :
    (finalizeThenTranscribe ⟨"stub", .ok "", ⟨"none", none, .raised⟩⟩
        [⟨1, 7, 0, 5, .uploaded, none, none, none, none, none, none, none⟩]
        1 7 "users/7/a.m4a" none none "tok1").map
      (fun out => ((getEntry out.1 1).map Entry.status, out.2.1, out.2.2)) =
      some (some .processing, .idempotentOk 1 .processing, false) := by
  decide

/-- C3 (failing input): with the whisper backend and a non-empty new
transcription, `entry.transcript_raw = text or entry.transcript_raw`
overwrites a pre-populated `transcript_raw`; the stub branch, by contrast,
preserves it. -/
theorem C3_whisper_overwrites_transcript_raw :
    (getEntry (transcribeEntry ⟨"whisper", .ok "new text", ⟨"none", none, .raised⟩⟩
        [⟨1, 7, 0, 5, .processing, some "https://cdn.example.com/a.m4a", none, none,
          some "old raw", none, none, none⟩] 1 none).1 1).map Entry.transcriptRaw =
      some (some "new text") ∧
    (getEntry (transcribeEntry ⟨"stub", .ok "new text", ⟨"none", none, .raised⟩⟩
        [⟨1, 7, 0, 5, .processing, some "https://cdn.example.com/a.m4a", none, none,
          some "old raw", none, none, none⟩] 1 none).1 1).map Entry.transcriptRaw =
      some (some "old raw") := by
  exact ⟨by decide, by decide⟩

/-- C4 counterexample: an entry already in `transcribed` is moved back to
`processing` by the explicit re-enqueue endpoint, so `Transcribed → Processing`
happens and `Failed → Processing` is not the only backward transition. -/
theorem C4_counterexample :
    (enqueueTranscription
        [⟨1, 7, 0, 5, .transcribed, none, none, none, some "r", some "c", none, some "t0"⟩]
        1 7 none "k2").map
      (fun out => (getEntry out.1 1).map Entry.status) = some (some .processing) ∧
    (⟨1, 7, 0, 5, .transcribed, none, none, none, some "r", some "c", none,
      some "t0"⟩ : Entry).status = .transcribed := by
  exact ⟨by decide, rfl⟩

/-- C4 (amended): the transcription job itself never moves a status backward
— it leaves the entry untouched (short-circuit) or writes a terminal
`transcribed`/`failed`; but both finalize and the explicit re-enqueue endpoint
set `processing` from any current status (including `transcribed`, not only
`failed`), and the worker-facing update endpoint may set any of the four valid
statuses, so observed status sequences need not be subsequences of
`Uploaded, Processing, {Transcribed|Failed}`. -/
theorem C4_amended_status_transitions :
    (∀ (env : TranscribeEnv) (store : List Entry) (entryId : Nat) (k : Option String)
      (e e2 : Entry), getEntry store entryId = some e →
      getEntry (transcribeEntry env store entryId k).1 entryId = some e2 →
      (e2 = e ∨ e2.status = .transcribed ∨ e2.status = .failed)) ∧
    (∀ (store : List Entry) (entryId userId : Nat) (pk : Option String) (fk : String)
      (out : List Entry × String), enqueueTranscription store entryId userId pk fk = some out →
      (getEntry out.1 entryId).map Entry.status = some .processing) ∧
    (∀ (store : List Entry) (entryId userId : Nat) (objectKey : String)
      (sizeBytes : Option Nat) (language : Option String) (fk : String)
      (out : List Entry), finalizeUpload store entryId userId objectKey sizeBytes language fk
        = some out →
      (getEntry out entryId).map Entry.status = some .processing) ∧
    (∀ (store : List Entry) (entryId userId : Nat) (p : UpdatePayload) (out : List Entry)
      (s : String), updateEntry store entryId userId p = some out → p.status = some s →
      ∃ st, statusOfString s = some st ∧
        (getEntry out entryId).map Entry.status = some st) := by
  refine ⟨?_, ?_, ?_, ?_⟩
  · intro env store entryId k e e2 h h2
    by_cases h1 : e.status = .transcribed
    · rw [transcribeEntry_already h h1] at h2
      rw [h] at h2
      exact Or.inl (Option.some.inj h2).symm
    · by_cases hd : tokenDup e k = true
      · rw [transcribeEntry_dup h h1 hd] at h2
        rw [h] at h2
        exact Or.inl (Option.some.inj h2).symm
      · have hd2 : tokenDup e k = false := by
          revert hd; cases tokenDup e k <;> simp
        rw [transcribeEntry_run h h1 hd2] at h2
        have hid : (runPipelineBody env (adoptKey e k)).id = entryId := by
          rw [runPipelineBody_id, adoptKey_id, getEntry_id h]
        rw [getEntry_saveEntry _ h hid] at h2
        cases Option.some.inj h2
        rcases runPipelineBody_status env (adoptKey e k) with hT | ⟨hF, _, _⟩
        · exact Or.inr (Or.inl hT)
        · exact Or.inr (Or.inr hF)
  · intro store entryId userId pk fk out hout
    unfold enqueueTranscription at hout
    split at hout
    · cases hout
    · rename_i e hget
      split at hout
      · cases hout
      · cases hout
        rw [getEntry_saveEntry ({ e with
          status := EntryStatus.processing,
          idempotencyKey := some (if optTruthy pk = true then optStr pk else fk) })
          hget (by simpa using getEntry_id hget)]
        rfl
  · intro store entryId userId objectKey sizeBytes language fk out hout
    unfold finalizeUpload at hout
    split at hout
    · cases hout
    · rename_i e hget
      split at hout
      · cases hout
      · cases hout
        rw [getEntry_saveEntry ({ e with
          audioUrl := some (objectPublicUrl objectKey),
          sizeBytes := (match sizeBytes with | some n => some n | none => e.sizeBytes),
          language := (match language with | some l => some l | none => e.language),
          status := EntryStatus.processing,
          idempotencyKey := some fk }) hget (by simpa using getEntry_id hget)]
        rfl
  · intro store entryId userId p out s hout hps
    unfold updateEntry at hout
    split at hout
    · cases hout
    · rw [hps] at hout
      cases hst : statusOfString s with
      | none => simp [hst] at hout
      | some st =>
        simp only [hst, Option.isNone_some, Bool.false_eq_true, if_false] at hout
        split at hout
        · cases hout
        · rename_i e hget
          split at hout
          · cases hout
          · cases hout
            rw [getEntry_saveEntry (applyUpdates e p) hget (by simpa [applyUpdates] using getEntry_id hget)]
            refine ⟨st, rfl, ?_⟩
            have hstat : (applyUpdates e p).status = st := by
              unfold applyUpdates
              rw [hps]
              simp [hst]
            simp [hstat]

/-- Witness for the amended C4: a stub job turns a `processing` entry
terminal; re-enqueue and finalize put a `transcribed` entry back to
`processing`; the update endpoint sets a provided valid status. -/
theorem C4_amended_status_transitions_witness :
    ((⟨1, 7, 0, 5, .transcribed, none, none, none, some "[raw transcript placeholder]",
        some "[raw transcript placeholder]", none, none⟩ : Entry) =
        ⟨1, 7, 0, 5, .processing, none, none, none, none, none, none, none⟩ ∨
      (⟨1, 7, 0, 5, .transcribed, none, none, none, some "[raw transcript placeholder]",
        some "[raw transcript placeholder]", none, none⟩ : Entry).status = .transcribed ∨
      (⟨1, 7, 0, 5, .transcribed, none, none, none, some "[raw transcript placeholder]",
        some "[raw transcript placeholder]", none, none⟩ : Entry).status = .failed) ∧
    (getEntry ([⟨1, 7, 0, 5, .processing, none, none, none, some "r", some "c", none,
        some "k2"⟩] : List Entry) 1).map Entry.status = some .processing ∧
    (getEntry ([⟨1, 7, 0, 5, .processing, some "https://cdn.example.com/obj", none, none,
        none, none, none, some "fk"⟩] : List Entry) 1).map Entry.status = some .processing ∧
    (∃ st, statusOfString "uploaded" = some st ∧
      (getEntry ([⟨1, 7, 0, 5, .uploaded, none, none, none, some "r", some "c", none,
        some "t0"⟩] : List Entry) 1).map Entry.status = some st) := by
  refine ⟨?_, ?_, ?_, ?_⟩
  · exact C4_amended_status_transitions.1 ⟨"stub", .ok "", ⟨"none", none, .raised⟩⟩
      [⟨1, 7, 0, 5, .processing, none, none, none, none, none, none, none⟩] 1 none
      ⟨1, 7, 0, 5, .processing, none, none, none, none, none, none, none⟩
      ⟨1, 7, 0, 5, .transcribed, none, none, none, some "[raw transcript placeholder]",
        some "[raw transcript placeholder]", none, none⟩ rfl (by decide)
  · exact C4_amended_status_transitions.2.1
      [⟨1, 7, 0, 5, .transcribed, none, none, none, some "r", some "c", none, some "t0"⟩]
      1 7 none "k2"
      ([⟨1, 7, 0, 5, .processing, none, none, none, some "r", some "c", none, some "k2"⟩], "k2")
      (by decide)
  · exact C4_amended_status_transitions.2.2.1
      [⟨1, 7, 0, 5, .transcribed, none, none, none, none, none, none, some "t0"⟩]
      1 7 "obj" none none "fk"
      [⟨1, 7, 0, 5, .processing, some "https://cdn.example.com/obj", none, none,
        none, none, none, some "fk"⟩]
      (by decide)
  · exact C4_amended_status_transitions.2.2.2
      [⟨1, 7, 0, 5, .transcribed, none, none, none, some "r", some "c", none, some "t0"⟩]
      1 7 ⟨some "uploaded", none, none, none, none, none⟩
      [⟨1, 7, 0, 5, .uploaded, none, none, none, some "r", some "c", none, some "t0"⟩]
      "uploaded" (by decide) rfl

/-- Computation of the export job on a found row, successful upload. -/
theorem generateExport_success_eq (store : List ExportRequest) (exportId : Nat)
    (ex0 : ExportRequest) (u : String) (hget : getExport store exportId = some ex0) :
    generateExport (.success u) store exportId =
      (saveExport (saveExport store { ex0 with status := .processing })
        { ex0 with
          status := .complete,
          resultUrl := some (if u != "" then u
            else objectPublicUrl (exportObjectKey ex0.userId ex0.id)) },
       [{ ex0 with status := .processing },
        { ex0 with
          status := .complete,
          resultUrl := some (if u != "" then u
            else objectPublicUrl (exportObjectKey ex0.userId ex0.id)) }]) := by
  unfold generateExport
  rw [hget]

/-- Computation of the export job on a found row, failing upload. -/
theorem generateExport_failure_eq (store : List ExportRequest) (exportId : Nat)
    (ex0 : ExportRequest) (err : PyExc) (hget : getExport store exportId = some ex0) :
    generateExport (.failure err) store exportId =
      (saveExport (saveExport store { ex0 with status := .processing })
        { ex0 with status := .failed },
       [{ ex0 with status := .processing }, { ex0 with status := .failed }]) := by
  unfold generateExport
  rw [hget]

/-- C8: at creation the export row has no result URL and a non-`complete`
status; and starting from any row without a result URL, every state the
Export Job writes satisfies `result_url ≠ none ↔ status = complete`: the
`processing` write keeps the URL null, a successful run writes `complete`
together with the published URL, and a failed run writes `failed` with the
URL still null. -/
theorem C8_result_url_iff_complete :
    (∀ (newId userId : Nat) (f t ca : Int) (ex : ExportRequest),
      createExport newId userId f t ca = some ex →
      ex.resultUrl = none ∧ ex.status = .processing ∧ exportInvariant ex) ∧
    (∀ (store : List ExportRequest) (exportId : Nat) (ex0 : ExportRequest) (u : String),
      getExport store exportId = some ex0 → ex0.resultUrl = none →
      (∀ w ∈ (generateExport (.success u) store exportId).2, exportInvariant w) ∧
      ∃ url, (generateExport (.success u) store exportId).2.map
          (fun w => (w.status, w.resultUrl)) =
        [(.processing, none), (.complete, some url)]) ∧
    (∀ (store : List ExportRequest) (exportId : Nat) (ex0 : ExportRequest) (err : PyExc),
      getExport store exportId = some ex0 → ex0.resultUrl = none →
      (∀ w ∈ (generateExport (.failure err) store exportId).2, exportInvariant w) ∧
      (generateExport (.failure err) store exportId).2.map
          (fun w => (w.status, w.resultUrl)) = [(.processing, none), (.failed, none)]) := by
  refine ⟨?_, ?_, ?_⟩
  · intro newId userId f t ca ex h
    unfold createExport at h
    split at h
    · cases h
    · cases h
      refine ⟨rfl, rfl, ?_⟩
      unfold exportInvariant
      simp
  · intro store exportId ex0 u hget h0
    rw [generateExport_success_eq store exportId ex0 u hget]
    constructor
    · intro w hw
      simp only [List.mem_cons, List.not_mem_nil, or_false] at hw
      rcases hw with rfl | rfl
      · unfold exportInvariant
        simp [h0]
      · unfold exportInvariant
        simp
    · refine ⟨if u != "" then u
        else objectPublicUrl (exportObjectKey ex0.userId ex0.id), ?_⟩
      simp [h0]
  · intro store exportId ex0 err hget h0
    rw [generateExport_failure_eq store exportId ex0 err hget]
    constructor
    · intro w hw
      simp only [List.mem_cons, List.not_mem_nil, or_false] at hw
      rcases hw with rfl | rfl
      · unfold exportInvariant
        simp [h0]
      · unfold exportInvariant
        simp [h0]
    · simp [h0]

/-- Witness for C8: a freshly created export satisfies the invariant; a
successful run writes `processing` then `complete` with a URL; a failed run
writes `processing` then `failed` with no URL. -/
theorem C8_result_url_iff_complete_witness :
    exportInvariant (⟨5, 7, 0, 10, .processing, none, 0⟩ : ExportRequest) ∧
    (∃ url, (generateExport (.success "u1") [⟨5, 7, 0, 10, .processing, none, 0⟩] 5).2.map
        (fun w => (w.status, w.resultUrl)) = [(.processing, none), (.complete, some url)]) ∧
    (generateExport (.failure ⟨"boom", "RuntimeError"⟩)
        [⟨5, 7, 0, 10, .processing, none, 0⟩] 5).2.map
      (fun w => (w.status, w.resultUrl)) = [(.processing, none), (.failed, none)] := by
  have h1 := C8_result_url_iff_complete.1 5 7 0 10 0 ⟨5, 7, 0, 10, .processing, none, 0⟩
    (by decide)
  have h2 := C8_result_url_iff_complete.2.1 [⟨5, 7, 0, 10, .processing, none, 0⟩] 5
    ⟨5, 7, 0, 10, .processing, none, 0⟩ "u1" rfl rfl
  have h3 := C8_result_url_iff_complete.2.2 [⟨5, 7, 0, 10, .processing, none, 0⟩] 5
    ⟨5, 7, 0, 10, .processing, none, 0⟩ ⟨"boom", "RuntimeError"⟩ rfl rfl
  exact ⟨h1.2.2, h2.2, h3.2⟩

end MyDay
